import Mathlib

/- Verification of the extraction-and-normalization engine of
   px-fio-parsing/parse_fio.py, shallowly embedded in Lean.

   Modelling conventions, used throughout:
   - Python floats are modelled as exact rationals; the float values this
     program manipulates are short decimals read from benchmark output, and
     all the identities below hold exactly at that granularity.
   - Python None and absent dictionary keys are modelled as Option.none.
   - Python ints are modelled as Int, sizes and counts as Nat where the
     source guarantees nonnegativity.
   - Dictionaries of percentile labels are modelled as association lists of
     (key, value) pairs with distinct keys, in insertion order.
   - Regular-expression scans are embedded as executable character-list
     matchers following the alternation and backtracking priority of the
     source patterns; each matcher documents the pattern it implements.  -/

set_option maxRecDepth 20000

namespace FioParse

/-- Python truthiness-based or over optional rationals, as in
    a or b: a numeric 0 is falsy and falls through to b. -/
def pyOrQ (a b : Option ℚ) : Option ℚ :=
  match a with
  | some x => if x = 0 then b else some x
  | none => b

/-- Python truthiness-based or over optional strings: the empty string is
    falsy and falls through. -/
def pyOrS (a b : Option String) : Option String :=
  match a with
  | some s => if s = "" then b else some s
  | none => b

/-- whitespace class of the regex escape for spaces and of str.strip. -/
def isWs (c : Char) : Bool :=
  c = ' ' || c = '\t' || c = '\n' || c = '\r' || c = '\x0b' || c = '\x0c'

/-- word-character class of the regex escape for word characters. -/
def isWordChar (c : Char) : Bool := c.isAlphanum || c = '_'

/-- character class of the number groups in the text-scan patterns:
    digits and the dot. -/
def isNumChar (c : Char) : Bool := c.isDigit || c = '.'

/-- str.strip: drop surrounding whitespace. -/
def stripWs (s : String) : String :=
  String.mk (((s.data.dropWhile isWs).reverse.dropWhile isWs).reverse)

/-- str.lower, character by character (the strings this program lowers are
    ASCII unit and mode tokens). -/
def lowerStr (s : String) : String := String.mk (s.data.map Char.toLower)

/-- str.endswith as a suffix test on the character lists. -/
def endsWithB (s suffix : String) : Bool := List.isSuffixOf suffix.data s.data

/-- str.startswith as a prefix test on the character lists. -/
def startsWithB (s pre : String) : Bool := List.isPrefixOf pre.data s.data

/-- numeric value of a run of decimal digit characters. -/
def digitsToNat (ds : List Char) : ℕ :=
  ds.foldl (fun a c => 10 * a + (c.toNat - 48)) 0

/-- Python code-point string order, used by tuple sorting in the percentile
    resolver: lexicographic comparison of the character lists. -/
def strLtB : List Char → List Char → Bool
  | [], [] => false
  | [], _ :: _ => true
  | _ :: _, [] => false
  | a :: as, b :: bs => if a < b then true else if b < a then false else strLtB as bs

/-- mantissa and power-of-ten scale of the digit part of a decimal literal:
    digits, optionally a dot and further digits; at least one digit in all.
    Returns the remaining characters as well. -/
def decMantissa (cs : List Char) : Option (ℕ × ℕ × List Char) :=
  let d1 := cs.takeWhile Char.isDigit
  let r1 := cs.dropWhile Char.isDigit
  match r1 with
  | '.' :: r2 =>
    let d2 := r2.takeWhile Char.isDigit
    let r3 := r2.dropWhile Char.isDigit
    if d1.isEmpty && d2.isEmpty then none
    else some (digitsToNat d1 * 10 ^ d2.length + digitsToNat d2, d2.length, r3)
  | _ =>
    if d1.isEmpty then none else some (digitsToNat d1, 0, r1)

/-- optional decimal exponent part of a float literal: e or E, an optional
    sign, and a nonempty digit run; fails when the e is present but
    malformed, which makes the whole literal invalid. -/
def decExponent (cs : List Char) : Option (Option (Int × List Char)) :=
  match cs with
  | c :: r =>
    if c = 'e' || c = 'E' then
      match r with
      | '+' :: r2 =>
        let ds := r2.takeWhile Char.isDigit
        if ds.isEmpty then none
        else some (some ((digitsToNat ds : Int), r2.dropWhile Char.isDigit))
      | '-' :: r2 =>
        let ds := r2.takeWhile Char.isDigit
        if ds.isEmpty then none
        else some (some (-(digitsToNat ds : Int), r2.dropWhile Char.isDigit))
      | _ =>
        let ds := r.takeWhile Char.isDigit
        if ds.isEmpty then none
        else some (some ((digitsToNat ds : Int), r.dropWhile Char.isDigit))
    else some none
  | [] => some none

/-- float() on a decimal literal string, reduced to an integer mantissa and a
    power-of-ten denominator exponent: optional surrounding whitespace,
    optional sign, digits with at most one dot, optional decimal exponent.
    Special forms (inf, nan, hex, underscore separators) are not modelled;
    the strings this program feeds to float() are plain decimals captured by
    its own regexes or read from structured numeric fields. -/
def pyFloatParts (s : String) : Option (Int × ℕ) :=
  let cs := s.data.dropWhile isWs
  let neg : Bool := match cs with | '-' :: _ => true | _ => false
  let cs1 := match cs with | '+' :: r => r | '-' :: r => r | _ => cs
  match decMantissa cs1 with
  | none => none
  | some (m, k, rest) =>
    match decExponent rest with
    | none => none
    | some none =>
      if (rest.dropWhile isWs).isEmpty then
        some (if neg then -(m : Int) else (m : Int), k)
      else none
    | some (some (e, rest2)) =>
      if (rest2.dropWhile isWs).isEmpty then
        let sgnm : Int := if neg then -(m : Int) else (m : Int)
        if e ≥ 0 then some (sgnm * 10 ^ e.toNat, k) else some (sgnm, k + (-e).toNat)
      else none

/-- value of a parsed float literal as an exact rational. -/
def partsToRat (p : Int × ℕ) : ℚ := (p.1 : ℚ) / 10 ^ p.2

/-- float() on a string, modelled exactly over the rationals. -/
def pyFloat (s : String) : Option ℚ := (pyFloatParts s).map partsToRat

/-- int() on a string: optional surrounding whitespace, optional sign and a
    nonempty digit run (underscore separators are not modelled). -/
def pyIntStr (s : String) : Option Int :=
  let cs := s.data.dropWhile isWs
  let neg : Bool := match cs with | '-' :: _ => true | _ => false
  let cs1 := match cs with | '+' :: r => r | '-' :: r => r | _ => cs
  let ds := cs1.takeWhile Char.isDigit
  let rest := cs1.dropWhile Char.isDigit
  if ds.isEmpty then none
  else if (rest.dropWhile isWs).isEmpty then
    some (if neg then -(digitsToNat ds : Int) else (digitsToNat ds : Int))
  else none

/-- truncation toward zero, as int() applied to a float. -/
def truncQ (q : ℚ) : Int := if q < 0 then -((-q).floor) else q.floor

/-- the helper _to_int applied to a string value: int(value), else
    int(float(value)), else absent. -/
def toIntOfStr (s : String) : Option Int :=
  match pyIntStr s with
  | some n => some n
  | none => (pyFloat s).map truncQ

/-- the unit converter _ns_to_ms. -/
def nsToMs (q : ℚ) : ℚ := q / 1000000

/-- the unit converter _us_to_ms. -/
def usToMs (q : ℚ) : ℚ := q / 1000

/-- the unit converter _kbps_to_MBps: fio reports bandwidth in KiB per
    second; the result basis is decimal MB per second. -/
def kbpsToMBps (q : ℚ) : ℚ := q * 1024 / 1000000

/-- exponent for a power-of-two size unit letter, as the unit table of
    _parse_size_to_bytes. -/
def sizeUnitPow (c : Char) : Option ℕ :=
  if c = 'k' || c = 'K' then some 10
  else if c = 'm' || c = 'M' then some 20
  else if c = 'g' || c = 'G' then some 30
  else if c = 't' || c = 'T' then some 40
  else if c = 'p' || c = 'P' then some 50
  else none

/-- the anchored size regex of _parse_size_to_bytes on the stripped value:
    a nonempty digit run, an optional power-of-two unit letter, an optional
    trailing b or B, then end of string.  The digit run is greedy and the
    unit letter is never a digit, so no backtracking arises. -/
def sizeMatch (cs : List Char) : Option (ℕ × ℕ) :=
  let ds := cs.takeWhile Char.isDigit
  let rest := cs.dropWhile Char.isDigit
  if ds.isEmpty then none
  else
    match rest with
    | [] => some (digitsToNat ds, 0)
    | [c] =>
      match sizeUnitPow c with
      | some p => some (digitsToNat ds, p)
      | none => if c = 'b' || c = 'B' then some (digitsToNat ds, 0) else none
    | [c, b] =>
      match sizeUnitPow c with
      | some p => if b = 'b' || b = 'B' then some (digitsToNat ds, p) else none
      | none => none
    | _ => none

/-- _parse_size_to_bytes: falsy (absent or empty) input is absent; a match of
    the size regex expands with the power-of-two table; otherwise int() on
    the raw value, absent when that fails too. -/
def parseSizeToBytes (value : Option String) : Option Int :=
  match value with
  | none => none
  | some v =>
    if v = "" then none
    else
      match sizeMatch (stripWs v).data with
      | some (n, p) => some ((n : Int) * 2 ^ p)
      | none => pyIntStr v

/-- _normalize_access_pattern: rand-prefixed modes are random, the four plain
    modes are sequential, anything else (or falsy input) is unknown. -/
def normalizeAccessPattern (rw : Option String) : Option String :=
  match rw with
  | none => none
  | some s =>
    if s = "" then none
    else
      let l := lowerStr s
      if startsWithB l "rand" then some "random"
      else if l = "read" || l = "write" || l = "rw" || l = "readwrite" then some "sequential"
      else none

/-- smallest exponent k with d dividing 10 to the k, searched up to 30. -/
def decExpOf (d : ℕ) : Option ℕ :=
  (List.range 31).find? (fun k => 10 ^ k % d = 0)

/-- left-pad a digit string with zeros to the given width. -/
def padLeftZeros (s : String) (w : ℕ) : String :=
  String.mk (List.replicate (w - s.length) '0') ++ s

/-- str() of a Python float holding the decimal rational q: the shortest
    decimal rendering with at least one fractional digit, as in 99.0 or
    98.5.  Targets with no finite decimal expansion do not arise in the
    source, which only resolves the percentiles 50, 95 and 99. -/
def pyStr (q : ℚ) : String :=
  let sgn := if q < 0 then "-" else ""
  let n := q.num.natAbs
  let d := q.den
  match decExpOf d with
  | some k =>
    let scaled := n * 10 ^ k / d
    let ip := scaled / 10 ^ k
    let fp := scaled % 10 ^ k
    let fs := padLeftZeros (toString fp) k
    let fs1 := String.mk ((fs.data.reverse.dropWhile (fun c => c = '0')).reverse)
    sgn ++ toString ip ++ "." ++ (if fs1 = "" then "0" else fs1)
  | none => toString q

/-- the fixed 6-decimal format of the target, as the format spec .6f; exact
    for the decimal targets the source uses. -/
def fmt6 (q : ℚ) : String :=
  let sgn := if q < 0 then "-" else ""
  let n := q.num.natAbs * 1000000 / q.den
  sgn ++ toString (n / 1000000) ++ "." ++ padLeftZeros (toString (n % 1000000)) 6

/-- candidate (distance, key) pairs over the float-parseable keys of the
    percentile table, in table order; unparseable keys are skipped. -/
def nearestPairs (ps : List (String × ℚ)) (t : ℚ) : List (ℚ × String) :=
  ps.filterMap (fun kv => (pyFloat kv.1).map (fun x => (|x - t|, kv.1)))

/-- one fold step selecting the minimal (distance, key) pair under the
    Python tuple order: distance first, then code-point string order;
    stable, so earlier pairs win ties. -/
def minPairStep (acc : Option (ℚ × String)) (p : ℚ × String) : Option (ℚ × String) :=
  match acc with
  | none => some p
  | some q => if p.1 < q.1 ∨ (p.1 = q.1 ∧ strLtB p.2.data q.2.data) then some p else some q

/-- head of the sorted pair list: the minimal pair, or none when empty. -/
def minPair (l : List (ℚ × String)) : Option (ℚ × String) :=
  l.foldl minPairStep none

/-- _find_percentile_key: exact match on str(target), then on the 6-decimal
    format of the target, then the numerically nearest float-parseable key;
    absent only when no key parses. -/
def findPercentileKey (ps : List (String × ℚ)) (t : ℚ) : Option String :=
  if (ps.map Prod.fst).contains (pyStr t) then some (pyStr t)
  else if (ps.map Prod.fst).contains (fmt6 t) then some (fmt6 t)
  else (minPair (nearestPairs ps t)).map Prod.snd

/-- which of the three resolution stages produced the key. -/
inductive PctStep where
  | exactStr : PctStep
  | fmtStr : PctStep
  | nearStr : PctStep
deriving DecidableEq

/-- _find_percentile_key instrumented with the stage that produced the key;
    identical branch structure to findPercentileKey. -/
def findPercentileKeyTagged (ps : List (String × ℚ)) (t : ℚ) : Option (PctStep × String) :=
  if (ps.map Prod.fst).contains (pyStr t) then some (.exactStr, pyStr t)
  else if (ps.map Prod.fst).contains (fmt6 t) then some (.fmtStr, fmt6 t)
  else (minPair (nearestPairs ps t)).map (fun k => (.nearStr, k.2))

/-- a value found under one of the latency keys of a direction sub-mapping:
    either not a mapping at all, or a mapping with an optional numeric mean
    and optional percentile tables under the keys percentile and
    percentiles (non-mapping percentile entries are not modelled). -/
inductive ClatVal where
  | nonDict : ClatVal
  | dict : Option ℚ → Option (List (String × ℚ)) → Option (List (String × ℚ)) → ClatVal
deriving DecidableEq

/-- the mean exposed by a latency container, present only when the container
    is a mapping and carries the mean key, as the isinstance and membership
    guard of the mean cascade. -/
def ClatVal.meanVal : ClatVal → Option ℚ
  | .dict m _ _ => m
  | .nonDict => none

/-- container.get(percentile) or container.get(percentiles), with Python
    truthiness: an absent or empty first table falls through to the second;
    a non-mapping container yields nothing. -/
def ClatVal.pctTable : ClatVal → Option (List (String × ℚ))
  | .nonDict => none
  | .dict _ p q =>
    match p with
    | some l => if l.isEmpty then q else some l
    | none => q

/-- one direction (read or write) sub-mapping of a job document: throughput
    fields and the six possible latency containers. -/
structure OpData where
  iops : Option ℚ
  bw : Option ℚ
  total_ios : Option Int
  clat_ns : Option ClatVal
  clat_us : Option ClatVal
  clat : Option ClatVal
  lat_ns : Option ClatVal
  lat_us : Option ClatVal
  lat : Option ClatVal
deriving DecidableEq

/-- which latency container the mean cascade selected. -/
inductive LatFam where
  | cNs : LatFam
  | cUs : LatFam
  | cGen : LatFam
  | sNs : LatFam
  | sUs : LatFam
  | sGen : LatFam
deriving DecidableEq

/-- unit conversion implied by the selected mean container: nanosecond
    containers convert by nsToMs, microsecond and generic ones by usToMs
    (the generic container is treated as microseconds, the legacy
    convention noted in the source). -/
def LatFam.toMs : LatFam → ℚ → ℚ
  | .cNs => nsToMs
  | .cUs => usToMs
  | .cGen => usToMs
  | .sNs => nsToMs
  | .sUs => usToMs
  | .sGen => usToMs

/-- the latency-mean cascade of parse_fio_json: the first container that is a
    mapping and exposes a mean wins, probed in the order clat_ns, clat_us,
    clat, lat_ns, lat_us, lat; the selected family is recorded with the raw
    mean. -/
def latMeanSel (o : OpData) : Option (LatFam × ℚ) :=
  match o.clat_ns.bind ClatVal.meanVal with
  | some m => some (.cNs, m)
  | none =>
  match o.clat_us.bind ClatVal.meanVal with
  | some m => some (.cUs, m)
  | none =>
  match o.clat.bind ClatVal.meanVal with
  | some m => some (.cGen, m)
  | none =>
  match o.lat_ns.bind ClatVal.meanVal with
  | some m => some (.sNs, m)
  | none =>
  match o.lat_us.bind ClatVal.meanVal with
  | some m => some (.sUs, m)
  | none =>
  match o.lat.bind ClatVal.meanVal with
  | some m => some (.sGen, m)
  | none => none

/-- lat_mean_ms as computed by parse_fio_json: the selected raw mean,
    converted with the unit of its container. -/
def latMeanMs (o : OpData) : Option ℚ :=
  (latMeanSel o).map (fun fm => fm.1.toMs fm.2)

/-- family of the completion-latency container consulted for percentiles. -/
inductive PctFam where
  | ns : PctFam
  | us : PctFam
  | generic : PctFam
deriving DecidableEq

/-- unit conversion for the percentile container family. -/
def PctFam.toMs : PctFam → ℚ → ℚ
  | .ns => nsToMs
  | _ => usToMs

/-- the mean-cascade family corresponding to a completion percentile
    family. -/
def famOfPct : PctFam → LatFam
  | .ns => .cNs
  | .us => .cUs
  | .generic => .cGen

/-- the completion-latency container consulted for percentiles: the first of
    clat_ns, clat_us, clat that is present at all (is not None, whether or
    not it is a mapping or exposes a mean), as the if/elif chain around
    _extract_pcts. -/
def clatPctSel (o : OpData) : Option (PctFam × ClatVal) :=
  match o.clat_ns with
  | some v => some (.ns, v)
  | none =>
  match o.clat_us with
  | some v => some (.us, v)
  | none => o.clat.map (fun v => (PctFam.generic, v))

/-- _extract_pcts for one target percentile over the selected container:
    resolve the key in the percentile table and convert the value with the
    unit of the selected family. -/
def extractPct (sel : Option (PctFam × ClatVal)) (t : ℚ) : Option ℚ :=
  match sel with
  | none => none
  | some (f, v) =>
    match v.pctTable with
    | none => none
    | some tbl =>
      match findPercentileKey tbl t with
      | none => none
      | some k => (List.lookup k tbl).map f.toMs

/-- clat_p99_ms of a direction sub-mapping. -/
def clatP99Ms (o : OpData) : Option ℚ := extractPct (clatPctSel o) 99

/-- clat_p95_ms of a direction sub-mapping. -/
def clatP95Ms (o : OpData) : Option ℚ := extractPct (clatPctSel o) 95

/-- clat_p50_ms of a direction sub-mapping. -/
def clatP50Ms (o : OpData) : Option ℚ := extractPct (clatPctSel o) 50

/-- runtime extraction of parse_fio_json: the job runtime with Python-or
    fallback to the global runtime (so a numeric 0 is falsy and falls
    through), then the dual-unit heuristic dividing values above 1000 by
    1000. -/
def runtimeSeconds (jobRt globalRt : Option ℚ) : Option ℚ :=
  match pyOrQ jobRt globalRt with
  | none => none
  | some r => if r > 1000 then some (r / 1000) else some r

/-- the job options sub-mapping: workload descriptors (numeric options are
    modelled after _to_int conversion). -/
structure JobOptions where
  rw : Option String
  readwrite : Option String
  bs : Option String
  iodepth : Option Int
  numjobs : Option Int
  size : Option String
deriving DecidableEq

/-- one job document of the structured output. -/
structure Job where
  jobname : Option String
  options : JobOptions
  runtime : Option ℚ
  read : Option OpData
  write : Option OpData
deriving DecidableEq

/-- the top-level structured document: an optional global runtime option and
    the optional jobs list. -/
structure FioDoc where
  globalRuntime : Option ℚ
  jobs : Option (List Job)
deriving DecidableEq

/-- the canonical output row (the ParsedRow dataclass; the source_file and
    timestamp bookkeeping fields, copied from the path, are omitted). -/
structure ParsedRow where
  task : Option String
  runner : Option String
  jobname : Option String
  rw : Option String
  access_pattern : Option String
  bs : Option String
  bs_bytes : Option Int
  iodepth : Option Int
  numjobs : Option Int
  runtime_s : Option ℚ
  size_bytes : Option Int
  op : String
  iops : Option ℚ
  bw_MBps : Option ℚ
  lat_mean_ms : Option ℚ
  clat_p99_ms : Option ℚ
  clat_p95_ms : Option ℚ
  clat_p50_ms : Option ℚ
  total_ios : Option Int
deriving DecidableEq

/-- size_bytes of parse_fio_json: _to_int of the size option first, else the
    power-of-two expansion of the same option. -/
def sizeBytesOf (size : Option String) : Option Int :=
  match size.bind toIntOfStr with
  | some n => some n
  | none => parseSizeToBytes size

/-- one canonical row for one direction of one job, as assembled by
    parse_fio_json. -/
def mkOpRow (task runner : Option String) (g : Option ℚ) (j : Job)
    (opName : String) (o : OpData) : ParsedRow :=
  let rw := pyOrS j.options.rw j.options.readwrite
  { task := task
    runner := runner
    jobname := j.jobname
    rw := rw
    access_pattern := normalizeAccessPattern rw
    bs := j.options.bs
    bs_bytes := parseSizeToBytes j.options.bs
    iodepth := j.options.iodepth
    numjobs := j.options.numjobs
    runtime_s := runtimeSeconds j.runtime g
    size_bytes := sizeBytesOf j.options.size
    op := opName
    iops := o.iops
    bw_MBps := o.bw.map kbpsToMBps
    lat_mean_ms := latMeanMs o
    clat_p99_ms := clatP99Ms o
    clat_p95_ms := clatP95Ms o
    clat_p50_ms := clatP50Ms o
    total_ios := o.total_ios }

/-- rows of one job: a read row when the read sub-mapping is present, then a
    write row when the write sub-mapping is present. -/
def jobRows (task runner : Option String) (g : Option ℚ) (j : Job) : List ParsedRow :=
  (match j.read with
   | some o => [mkOpRow task runner g j "read" o]
   | none => []) ++
  (match j.write with
   | some o => [mkOpRow task runner g j "write" o]
   | none => [])

/-- parse_fio_json: data.get(jobs) or [] then one pass over the jobs. -/
def parseFioJson (d : FioDoc) (task runner : Option String) : List ParsedRow :=
  (d.jobs.getD []).flatMap (jobRows task runner d.globalRuntime)

/-- case-insensitive literal match: the pattern is given lowercased; returns
    the matched original characters and the rest. -/
def ciTake (cs : List Char) (pat : List Char) : Option (List Char × List Char) :=
  match pat, cs with
  | [], _ => some ([], cs)
  | _ :: _, [] => none
  | p :: ps, c :: cs2 =>
    if c.toLower = p then (ciTake cs2 ps).map (fun r => (c :: r.1, r.2)) else none

/-- the latency unit alternation of the average-latency pattern, in source
    order: optional n then sec, then usec, msec, ms, us, ns; returns the
    matched token and the rest.  The question mark is greedy, so the n-sec
    branch is tried before the bare sec branch. -/
def latUnitTok (cs : List Char) : Option (List Char × List Char) :=
  match ciTake cs ['n', 's', 'e', 'c'] with
  | some r => some r
  | none =>
  match ciTake cs ['s', 'e', 'c'] with
  | some r => some r
  | none =>
  match ciTake cs ['u', 's', 'e', 'c'] with
  | some r => some r
  | none =>
  match ciTake cs ['m', 's', 'e', 'c'] with
  | some r => some r
  | none =>
  match ciTake cs ['m', 's'] with
  | some r => some r
  | none =>
  match ciTake cs ['u', 's'] with
  | some r => some r
  | none => ciTake cs ['n', 's']

/-- tail of the average-latency pattern at a candidate avg position: the
    literal avg, optional spaces, =, optional spaces, a nonempty digit-or-dot
    run, optional spaces, then a unit token.  The number run is greedy;
    shortening it would place a digit or dot where the unit (all letters)
    must match, so no backtracking into the run can succeed and the greedy
    take is faithful. -/
def avgTail (cs : List Char) : Option (String × String) :=
  match ciTake cs ['a', 'v', 'g'] with
  | none => none
  | some (_, r1) =>
    match r1.dropWhile isWs with
    | '=' :: r2 =>
      let r3 := r2.dropWhile isWs
      let num := r3.takeWhile isNumChar
      let r4 := r3.dropWhile isNumChar
      if num.isEmpty then none
      else
        match latUnitTok (r4.dropWhile isWs) with
        | some (u, _) => some (String.mk num, String.mk u)
        | none => none
    | _ => none

/-- the lazy dot-star scan (with DOTALL) before the avg literal: try the tail
    at each position from the left, consuming any character on failure. -/
def lazyAvg : List Char → Option (String × String)
  | [] => none
  | c :: rest =>
    match avgTail (c :: rest) with
    | some r => some r
    | none => lazyAvg rest

/-- one candidate start of the average-latency pattern: a word boundary, the
    alternation clat or lat (disjoint first characters, so deterministic),
    optional spaces, a parenthesized unit note (the bracket content cannot
    contain the closing bracket, so the greedy take is exact), a colon, then
    the lazy scan for the avg tail. -/
def latTryAt (prevWord : Bool) (cs : List Char) : Option (String × String) :=
  if prevWord then none
  else
    match
      (match ciTake cs ['c', 'l', 'a', 't'] with
       | some r => some r
       | none => ciTake cs ['l', 'a', 't']) with
    | none => none
    | some (_, r1) =>
      match r1.dropWhile isWs with
      | '(' :: r2 =>
        match r2.dropWhile (fun c => c ≠ ')') with
        | ')' :: ':' :: r3 => lazyAvg r3
        | _ => none
      | _ => none

/-- re.search for the average-latency pattern: leftmost candidate start
    wins; the word-boundary state is tracked while scanning. -/
def latSearchAux (prevWord : Bool) : List Char → Option (String × String)
  | [] => none
  | c :: rest =>
    match latTryAt prevWord (c :: rest) with
    | some r => some r
    | none => latSearchAux (isWordChar c) rest

/-- the latency scan of parse_fio_text: the captured average value string and
    unit token of the first match of the average-latency pattern. -/
def latScan (s : String) : Option (String × String) :=
  latSearchAux false s.data

/-- _parse_latency_to_ms. -/
def parseLatencyToMs (value unit : String) : Option ℚ :=
  match pyFloat value with
  | none => none
  | some v =>
    let u := lowerStr unit
    if u = "ns" || u = "nsec" then some (v / 1000000)
    else if u = "us" || u = "usec" then some (v / 1000)
    else if u = "ms" || u = "msec" then some v
    else none

/-- _parse_bw_to_MBps: strip the unit, parse the value, then the unit table;
    prefixed decimal and binary tokens convert with the binary factor, any
    other token ending in b-slash-s is bytes per second, anything else is
    absent. -/
def parseBwToMBps (value unit : String) : Option ℚ :=
  let u0 := stripWs unit
  match pyFloat value with
  | none => none
  | some v =>
    let u := lowerStr u0
    if u = "kb/s" || u = "kib/s" then some (v * 1024 / 1000000)
    else if u = "mb/s" || u = "mib/s" then some (v * 1024 * 1024 / 1000000)
    else if u = "gb/s" || u = "gib/s" then some (v * 1024 * 1024 * 1024 / 1000000)
    else if endsWithB u "b/s" then some (v / 1000000)
    else none

/-- is the character one of the bandwidth unit binary-prefix letters. -/
def isKMG (c : Char) : Bool :=
  c.toLower = 'k' || c.toLower = 'm' || c.toLower = 'g'

/-- the literal b-slash-s suffix of the bandwidth unit. -/
def bsSuffix (cs : List Char) : Option (List Char × List Char) :=
  ciTake cs ['b', '/', 's']

/-- bandwidth unit, branch with prefix letter and the i. -/
def bwUnitA (cs : List Char) : Option (List Char × List Char) :=
  match cs with
  | c :: i :: rest =>
    if isKMG c && i.toLower = 'i' then
      (bsSuffix rest).map (fun r => (c :: i :: r.1, r.2))
    else none
  | _ => none

/-- bandwidth unit, branch with prefix letter and no i. -/
def bwUnitB (cs : List Char) : Option (List Char × List Char) :=
  match cs with
  | c :: rest =>
    if isKMG c then (bsSuffix rest).map (fun r => (c :: r.1, r.2)) else none
  | _ => none

/-- the bandwidth unit group: an optional binary prefix letter with an
    optional i, then the b-slash-s suffix; greedy option order, so the
    longest variant is preferred. -/
def bwUnitTok (cs : List Char) : Option (List Char × List Char) :=
  match bwUnitA cs with
  | some r => some r
  | none =>
  match bwUnitB cs with
  | some r => some r
  | none => bsSuffix cs

/-- tail of the throughput pattern at a candidate IOPS position: the literal
    IOPS, spaces, =, spaces, a nonempty digit-or-dot run, spaces, a comma,
    spaces, the literal BW, spaces, =, spaces, a second run, spaces, then
    the unit group.  Both runs are greedy; shortening either would place a
    digit or dot where a non-digit literal must match, so the greedy takes
    are faithful.  Returns the two value strings, the unit token and the
    rest after the match. -/
def iopsAt (cs : List Char) : Option (String × String × String × List Char) :=
  match ciTake cs ['i', 'o', 'p', 's'] with
  | none => none
  | some (_, r1) =>
    match r1.dropWhile isWs with
    | '=' :: r2 =>
      let r3 := r2.dropWhile isWs
      let num := r3.takeWhile isNumChar
      let r4 := r3.dropWhile isNumChar
      if num.isEmpty then none
      else
        match r4.dropWhile isWs with
        | ',' :: r5 =>
          match ciTake (r5.dropWhile isWs) ['b', 'w'] with
          | none => none
          | some (_, r6) =>
            match r6.dropWhile isWs with
            | '=' :: r7 =>
              let r8 := r7.dropWhile isWs
              let num2 := r8.takeWhile isNumChar
              let r9 := r8.dropWhile isNumChar
              if num2.isEmpty then none
              else
                match bwUnitTok (r9.dropWhile isWs) with
                | some (u, rest) => some (String.mk num, String.mk num2, String.mk u, rest)
                | none => none
            | _ => none
        | _ => none
    | _ => none

/-- the lazy dot-star scan (no DOTALL: a newline cannot be consumed) before
    the IOPS literal. -/
def lazyIops : List Char → Option (String × String × String × List Char)
  | [] => none
  | c :: rest =>
    match iopsAt (c :: rest) with
    | some r => some r
    | none => if c = '\n' then none else lazyIops rest

/-- one candidate start of the throughput pattern: the alternation read or
    write (disjoint first characters, so deterministic, and no word
    boundary in the pattern), a colon, then the lazy scan for the IOPS
    tail. -/
def bwTryAt (cs : List Char) : Option (String × String × String × String × List Char) :=
  match
    (match ciTake cs ['r', 'e', 'a', 'd'] with
     | some r => some r
     | none => ciTake cs ['w', 'r', 'i', 't', 'e']) with
  | none => none
  | some (opChars, r1) =>
    match r1 with
    | ':' :: r2 =>
      (lazyIops r2).map (fun r => (String.mk opChars, r.1, r.2.1, r.2.2.1, r.2.2.2))
    | _ => none

/-- re.finditer for the throughput pattern with fuel: non-overlapping
    matches, scanning resumes after each match, advancing one character on
    failure. -/
def bwFindAll : ℕ → List Char → List (String × String × String × String)
  | 0, _ => []
  | _, [] => []
  | fuel + 1, c :: rest =>
    match bwTryAt (c :: rest) with
    | some (op, i, v, u, after) => (op, i, v, u) :: bwFindAll fuel after
    | none => bwFindAll fuel rest

/-- the throughput scan of parse_fio_text: all matches of the throughput
    pattern, as (op, iops string, bw value string, bw unit token). -/
def iopsBwScan (s : String) : List (String × String × String × String) :=
  bwFindAll (s.data.length + 1) s.data

/-- the iodepth alternation tail of the metadata pattern: iodepth or
    iodepth_batch, an =, then a nonempty digit run; the first alternative
    can only fail at the = or the digits, where the second cannot start, so
    trying the batch suffix after the shared literal is faithful. -/
def iodepthAt (cs : List Char) : Option String :=
  match ciTake cs ['i', 'o', 'd', 'e', 'p', 't', 'h'] with
  | none => none
  | some (_, r1) =>
    match r1 with
    | '=' :: r2 =>
      let ds := r2.takeWhile Char.isDigit
      if ds.isEmpty then none else some (String.mk ds)
    | _ =>
      match ciTake r1 ['_', 'b', 'a', 't', 'c', 'h'] with
      | some (_, r2) =>
        match r2 with
        | '=' :: r3 =>
          let ds := r3.takeWhile Char.isDigit
          if ds.isEmpty then none else some (String.mk ds)
        | _ => none
      | none => none

/-- the lazy dot-star scan (no DOTALL) before the iodepth alternation. -/
def lazyIodepth : List Char → Option String
  | [] => none
  | c :: rest =>
    match iodepthAt (c :: rest) with
    | some r => some r
    | none => if c = '\n' then none else lazyIodepth rest

/-- descending splits of a greedy run, longest prefix first, as the
    backtracking order of a greedy one-or-more group. -/
def splitsDesc (l : List Char) : List (List Char × List Char) :=
  (List.range l.length).reverse.map (fun i => (l.take (i + 1), l.drop (i + 1)))

/-- the block-size part of the metadata pattern at the position after the
    bs= literal: a greedy nonempty non-space run with backtracking, a word
    boundary after it, then the lazy scan for the iodepth tail; longer runs
    are preferred, shorter ones tried on failure. -/
def bsTail (cs : List Char) : Option (String × String) :=
  let run := cs.takeWhile (fun c => !isWs c)
  let rest := cs.dropWhile (fun c => !isWs c)
  (splitsDesc run).findSome? (fun br =>
    match br.1.getLast? with
    | none => none
    | some lc =>
      let nextWord := match (br.2 ++ rest).head? with
        | some c => isWordChar c
        | none => false
      if isWordChar lc ≠ nextWord then
        (lazyIodepth (br.2 ++ rest)).map (fun d => (String.mk br.1, d))
      else none)

/-- the bs= literal and its tail. -/
def bsAt (cs : List Char) : Option (String × String) :=
  match ciTake cs ['b', 's'] with
  | none => none
  | some (_, r1) =>
    match r1 with
    | '=' :: r2 => bsTail r2
    | _ => none

/-- the lazy dot-star scan (no DOTALL) before the bs= literal. -/
def lazyBs : List Char → Option (String × String)
  | [] => none
  | c :: rest =>
    match bsAt (c :: rest) with
    | some r => some r
    | none => if c = '\n' then none else lazyBs rest

/-- one candidate start of the metadata pattern: a word boundary, the rw=
    literal, a greedy nonempty word-character run with backtracking for the
    rw group, then the lazy scan for the bs part. -/
def rwTryAt (prevWord : Bool) (cs : List Char) : Option (String × String × String) :=
  if prevWord then none
  else
    match ciTake cs ['r', 'w'] with
    | none => none
    | some (_, r1) =>
      match r1 with
      | '=' :: r2 =>
        let run := r2.takeWhile isWordChar
        let rest := r2.dropWhile isWordChar
        (splitsDesc run).findSome? (fun br =>
          (lazyBs (br.2 ++ rest)).map (fun bd => (String.mk br.1, bd.1, bd.2)))
      | _ => none

/-- re.search for the metadata pattern: leftmost candidate start wins. -/
def metaSearchAux (prevWord : Bool) : List Char → Option (String × String × String)
  | [] => none
  | c :: rest =>
    match rwTryAt prevWord (c :: rest) with
    | some r => some r
    | none => metaSearchAux (isWordChar c) rest

/-- the metadata scan of parse_fio_text: the captured rw mode, block size
    and iodepth digit strings of the first match of the metadata pattern. -/
def metaScan (s : String) : Option (String × String × String) :=
  metaSearchAux false s.data

/-- parse_fio_text.  The metadata and latency scans run first and cannot
    raise.  The ParsedRow dataclass requires 21 fields including total_ios,
    but both row constructions inside parse_fio_text pass only 20 fields and
    omit total_ios, so building the first throughput row, or the single
    degraded unknown row, raises TypeError.  The embedding therefore yields
    the error as soon as a row construction is reached: on the first
    iteration of the throughput loop when the throughput scan matched, or at
    the degraded-row construction when no throughput line matched but a
    latency average was found; only when no construction is attempted does
    the function return its row list, which is then necessarily empty. -/
def parseFioText (text : String) (_task _runner : Option String) :
    Except Unit (List ParsedRow) :=
  let latG := (latScan text).bind (fun m => parseLatencyToMs m.1 m.2)
  match iopsBwScan text with
  | _ :: _ => .error ()
  | [] =>
    match latG with
    | some _ => .error ()
    | none => .ok []

/-- outcome of json.loads on the file content, as far as the structured
    branch of parse_file observes it: loads raised; loads produced a
    non-mapping value, on which the attribute access inside the try block
    raises and is caught; or loads produced a mapping, embedded as a
    FioDoc (a document so ill-typed that extraction itself raises is
    represented by the first two cases, since the exception handler is the
    same). -/
inductive JsonLoadResult where
  | fail : JsonLoadResult
  | nonDict : JsonLoadResult
  | doc : FioDoc → JsonLoadResult

/-- parse_file after a successful read: the structured branch, with the text
    fallback exactly when the structured branch raises; the fallback branch
    is itself wrapped in a try/except that turns any exception raised by
    parse_fio_text (in particular the TypeError of its row constructions)
    into an empty result. -/
def parseFile (jr : JsonLoadResult) (content : String) (task runner : Option String) :
    List ParsedRow :=
  match jr with
  | .doc d => parseFioJson d task runner
  | _ =>
    match parseFioText content task runner with
    | .ok rows => rows
    | .error _ => []

/-- the task-name convention pattern, anchored at the start of a path
    segment: the literal parallel-, a nonempty digit run, a dash, a nonempty
    letter run (case-insensitive), a dash.  Both runs are greedy and the
    dash is in neither class, so no backtracking arises. -/
def taskPatMatches (s : String) : Bool :=
  match ciTake s.data ['p', 'a', 'r', 'a', 'l', 'l', 'e', 'l', '-'] with
  | none => false
  | some (_, r1) =>
    let ds := r1.takeWhile Char.isDigit
    let r2 := r1.dropWhile Char.isDigit
    if ds.isEmpty then false
    else
      match r2 with
      | '-' :: r3 =>
        let ls := r3.takeWhile Char.isAlpha
        let r4 := r3.dropWhile Char.isAlpha
        if ls.isEmpty then false
        else
          match r4 with
          | '-' :: _ => true
          | _ => false
      | _ => false

/-- compute_task_name over the segments of the path relative to the scan
    root: the first segment matching the convention pattern; else the first
    segment, but only when there is more than one segment; else absent. -/
def computeTaskName (parts : List String) : Option String :=
  match parts.find? taskPatMatches with
  | some p => some p
  | none => if 1 < parts.length then parts.head? else none

/-- pandas mean of a numeric column over a group, with missing values
    skipped: the mean of the present values, missing when none are
    present. -/
def meanOpt (l : List ℚ) : Option ℚ :=
  if l.isEmpty then none else some (l.sum / l.length)

/-- the mean of a metric over the rows of one (runner, op) group, as the
    groupby over runner and op followed by mean. -/
def runnerMeanMetric (f : ParsedRow → Option ℚ) (rows : List ParsedRow)
    (op : String) (rn : Option String) : Option ℚ :=
  meanOpt ((rows.filter (fun x => x.op == op && x.runner == rn)).filterMap f)

/-- the distinct runner keys of the frame (missing runners form their own
    group, as groupby with dropna false). -/
def runnersIn (rows : List ParsedRow) : List (Option String) :=
  (rows.map (fun r => r.runner)).dedup

/-- the runner-normalized throughput rollup of _write_task_sheet and of the
    summary aggregation in export_to_excel, for one op: mean across repeated
    attempts within each runner, then the sum of the per-runner means across
    runners (groups whose metric is entirely missing contribute nothing, as
    the pandas sum skips missing values). -/
def summaryRunnerSum (f : ParsedRow → Option ℚ) (rows : List ParsedRow) (op : String) : ℚ :=
  ((runnersIn rows).filterMap (runnerMeanMetric f rows op)).sum

/-- the raw row sum of a metric for one op, as the groupby over op followed
    by sum. -/
def summaryRowSum (f : ParsedRow → Option ℚ) (rows : List ParsedRow) (op : String) : ℚ :=
  ((rows.filter (fun x => x.op == op)).filterMap f).sum

/-- the per-op summary throughput value: the runner-normalized rollup when
    any runner identity is present in the frame, the raw row sum
    otherwise. -/
def taskOpSummary (f : ParsedRow → Option ℚ) (rows : List ParsedRow) (op : String) : ℚ :=
  if rows.any (fun r => r.runner.isSome) then summaryRunnerSum f rows op
  else summaryRowSum f rows op

/-- empty job options, for concrete example documents. -/
def emptyOpt : JobOptions :=
  { rw := none, readwrite := none, bs := none, iodepth := none, numjobs := none, size := none }

/-- a direction sub-mapping whose throughput fields all carry measured
    zeros and whose latency containers are all absent. -/
def zeroOp : OpData :=
  { iops := some 0, bw := some 0, total_ios := some 0,
    clat_ns := none, clat_us := none, clat := none,
    lat_ns := none, lat_us := none, lat := none }

/-- a direction sub-mapping whose metrics are measured zeros and whose
    nanosecond completion container carries a zero mean and a zero p99. -/
def zeroLatOp : OpData :=
  { iops := some 0, bw := some 0, total_ios := some 0,
    clat_ns := some (.dict (some 0) (some [("99.000000", 0)]) none),
    clat_us := none, clat := none, lat_ns := none, lat_us := none, lat := none }

/-- a job whose own runtime is the measured value 0. -/
def zeroRuntimeJob : Job :=
  { jobname := none, options := emptyOpt, runtime := some 0,
    read := some zeroOp, write := none }

/-- a document with global runtime option 5000 and the zero-runtime job. -/
def zeroRuntimeDoc : FioDoc :=
  { globalRuntime := some 5000, jobs := some [zeroRuntimeJob] }

/-- a well-formed mapping document with no jobs list. -/
def noJobsDoc : FioDoc := { globalRuntime := none, jobs := none }

/-- a direction sub-mapping exposing a nanosecond completion-latency
    container with a percentile table but no mean, next to a microsecond
    completion container with a mean. -/
def mixedOp : OpData :=
  { iops := none, bw := none, total_ios := none,
    clat_ns := some (.dict none (some [("99.000000", 2000000)]) none),
    clat_us := some (.dict (some 50) none none),
    clat := none, lat_ns := none, lat_us := none, lat := none }

/-- a direction sub-mapping whose only latency container is a nanosecond
    completion container exposing both a mean and a percentile table. -/
def nsOnlyOp : OpData :=
  { iops := none, bw := none, total_ios := none,
    clat_ns := some (.dict (some 7) (some [("99.000000", 3)]) none),
    clat_us := none, clat := none, lat_ns := none, lat_us := none, lat := none }

/-- one throughput attempt row for the aggregation examples: a named runner,
    op read, and a measured IOPS value. -/
def attemptRow (rn : String) (v : ℚ) : ParsedRow :=
  { task := some "parallel-3-seq-bench", runner := some rn, jobname := none,
    rw := some "read", access_pattern := some "sequential", bs := some "4k",
    bs_bytes := some 4096, iodepth := some 16, numjobs := none,
    runtime_s := none, size_bytes := none, op := "read", iops := some v,
    bw_MBps := none, lat_mean_ms := none, clat_p99_ms := none,
    clat_p95_ms := none, clat_p50_ms := none, total_ios := none }

/-- one runner, three repeated attempts of 1000, 1100 and 900 IOPS. -/
def oneRunnerRows : List ParsedRow :=
  [attemptRow "fio-runner-a" 1000, attemptRow "fio-runner-a" 1100,
   attemptRow "fio-runner-a" 900]

/-- two runners, each with the same three repeated attempts. -/
def twoRunnerRows : List ParsedRow :=
  oneRunnerRows ++
  [attemptRow "fio-runner-b" 1000, attemptRow "fio-runner-b" 1100,
   attemptRow "fio-runner-b" 900]

/-- the instrumented percentile resolver agrees with the plain one on the
    key it returns. -/
theorem findPercentileKeyTagged_snd (ps : List (String × ℚ)) (t : ℚ) :
    (findPercentileKeyTagged ps t).map Prod.snd = findPercentileKey ps t := by
  unfold findPercentileKeyTagged findPercentileKey
  split
  · rfl
  · split
    · rfl
    · cases minPair (nearestPairs ps t) <;> rfl

/-- the text extractor never returns rows: a successful return means no row
    construction was attempted, so the returned list is empty (every
    attempted construction raises on the missing total_ios field). -/
theorem parseFioText_ok_empty (text : String) (t r : Option String)
    (rows : List ParsedRow) (h : parseFioText text t r = .ok rows) : rows = [] := by
  simp only [parseFioText] at h
  cases hbw : iopsBwScan text with
  | cons a l =>
    rw [hbw] at h
    exact absurd h (by simp)
  | nil =>
    rw [hbw] at h
    cases hl : (latScan text).bind (fun m => parseLatencyToMs m.1 m.2) with
    | some x =>
      rw [hl] at h
      exact absurd h (by simp)
    | none =>
      rw [hl] at h
      simpa using h.symm

/-- folding the minimum-pair step from a present accumulator stays
    present. -/
theorem foldl_minPairStep_isSome (l : List (ℚ × String)) (a : ℚ × String) :
    (l.foldl minPairStep (some a)).isSome = true := by
  induction l generalizing a with
  | nil => rfl
  | cons x xs ih =>
    have h : ∃ b, minPairStep (some a) x = some b := by
      simp only [minPairStep]
      split_ifs <;> exact ⟨_, rfl⟩
    obtain ⟨b, hb⟩ := h
    rw [List.foldl_cons, hb]
    exact ih b

/-- the minimum of a nonempty pair list is present. -/
theorem minPair_isSome (l : List (ℚ × String)) (h : l ≠ []) :
    (minPair l).isSome = true := by
  cases l with
  | nil => exact absurd rfl h
  | cons x xs =>
    unfold minPair
    rw [List.foldl_cons]
    exact foldl_minPairStep_isSome xs x

/-- Claim C7: the textual size expansion maps 4G to 4 times 2 to the 30
    bytes and 256k to 256 times 2 to the 10 bytes via the power-of-two unit
    table, maps a bare digit string to its own value as a byte count, and
    maps an unparseable string, or an absent value, to absent, never to
    zero. -/
theorem C7_size_expansion :
    parseSizeToBytes (some "4G") = some (4 * 2 ^ 30) ∧
    parseSizeToBytes (some "256k") = some (256 * 2 ^ 10) ∧
    (∀ cs : List Char, cs ≠ [] → (∀ c ∈ cs, c.isDigit) →
      parseSizeToBytes (some (String.mk cs)) = some ((digitsToNat cs : Int))) ∧
    parseSizeToBytes (some "16 zebras") = none ∧
    parseSizeToBytes none = none := by
  refine ⟨by decide, by decide, ?_, by decide, rfl⟩
  intro cs hne hdig
  have hnw : ∀ c : Char, c.isDigit = true → isWs c = false := by
    intro c h
    cases hws : isWs c
    · rfl
    · exfalso
      simp only [isWs, Bool.or_eq_true, decide_eq_true_eq] at hws
      rcases hws with ((((h1 | h1) | h1) | h1) | h1) | h1 <;> subst h1 <;>
        exact absurd h (by decide)
  have hds : ∀ l : List Char, (∀ c ∈ l, isWs c = false) → l.dropWhile isWs = l := by
    intro l hl
    cases l with
    | nil => rfl
    | cons a t => simp [List.dropWhile_cons, hl a (by simp)]
  have hts : ∀ l : List Char, (∀ c ∈ l, c.isDigit = true) →
      l.takeWhile Char.isDigit = l ∧ l.dropWhile Char.isDigit = [] := by
    intro l hl
    induction l with
    | nil => exact ⟨rfl, rfl⟩
    | cons a t ih =>
      have ha := hl a (by simp)
      have iht := ih (fun c hc => hl c (by simp [hc]))
      simp [List.takeWhile_cons, List.dropWhile_cons, ha, iht.1, iht.2]
  have hmkne : String.mk cs ≠ "" := by
    intro h
    exact hne (by simpa using congrArg String.data h)
  have hstrip : stripWs (String.mk cs) = String.mk cs := by
    unfold stripWs
    have h1 : cs.dropWhile isWs = cs := hds cs (fun c hc => hnw c (hdig c hc))
    have h2 : cs.reverse.dropWhile isWs = cs.reverse :=
      hds cs.reverse (fun c hc => hnw c (hdig c (List.mem_reverse.mp hc)))
    simp only [h1, h2, List.reverse_reverse]
  have hsm : sizeMatch cs = some (digitsToNat cs, 0) := by
    unfold sizeMatch
    obtain ⟨ht, hd⟩ := hts cs hdig
    rw [ht, hd]
    have : cs.isEmpty = false := by
      cases cs with
      | nil => exact absurd rfl hne
      | cons a t => rfl
    simp [this]
  have hdata : (String.mk cs).data = cs := rfl
  simp only [parseSizeToBytes]
  rw [if_neg hmkne, hstrip, hdata]
  simp only [hsm]
  simp

/-- witness for the size expansion on the bare digit string 7. -/
theorem C7_size_expansion_witness :
    parseSizeToBytes (some (String.mk ['7'])) = some (7 : Int) := by
  rw [C7_size_expansion.2.2.1 ['7'] (by decide) (by decide)]
  decide

/-- Claim C8 (counterexample): a job whose raw runtime value is the numeric
    value 0 does not keep runtime 0; the Python or treats 0 as falsy and
    falls back to the global runtime 5000, which the heuristic then divides
    to 5 seconds. -/
theorem C8_runtime_heuristic_counterexample :
    (parseFioJson zeroRuntimeDoc none none).map (fun r => r.runtime_s) = [some 5] ∧
    runtimeSeconds (some 0) (some 5000) = some 5 ∧ some (5 : ℚ) ≠ some (0 : ℚ) := by
  have h : runtimeSeconds (some 0) (some 5000) = some 5 := by
    have hp : pyOrQ (some 0) (some 5000) = some 5000 := by simp [pyOrQ]
    simp only [runtimeSeconds, hp]
    norm_num
  refine ⟨?_, h, by norm_num⟩
  simp [parseFioJson, zeroRuntimeDoc, jobRows, zeroRuntimeJob, mkOpRow, h]

/-- Claim C8 (amended): for every job whose raw runtime value is numeric and
    nonzero, a value above 1000 is treated as milliseconds and divided by
    1000, and any other value is stored unchanged; a zero runtime is falsy
    in the source and falls back to the global value instead. -/
theorem C8_runtime_heuristic (r : ℚ) (g : Option ℚ) (h : r ≠ 0) :
    runtimeSeconds (some r) g = some (if r > 1000 then r / 1000 else r) := by
  have hp : pyOrQ (some r) g = some r := by simp [pyOrQ, h]
  simp only [runtimeSeconds, hp]
  split_ifs <;> rfl

/-- witness for the runtime heuristic at the concrete values 2000 and 30. -/
theorem C8_runtime_heuristic_witness :
    runtimeSeconds (some 2000) none = some 2 ∧
    runtimeSeconds (some 30) none = some 30 := by
  constructor
  · rw [C8_runtime_heuristic 2000 none (by norm_num)]
    norm_num
  · rw [C8_runtime_heuristic 30 none (by norm_num)]
    norm_num

/-- Claim C9 (counterexample): a relative path with a single segment and no
    convention match yields no task name, although a path segment is
    available; the claim would require the first segment. -/
theorem C9_task_name_counterexample :
    computeTaskName ["results.json"] = none ∧ (["results.json"] : List String) ≠ [] := by
  exact ⟨by decide, by decide⟩

/-- Claim C9 (amended): the task is the first path segment matching the
    parallel-number-letters- convention; with no match it is the first
    segment only when the relative path has more than one segment; a single
    unmatched segment yields no task. -/
theorem C9_task_name (parts : List String) :
    (∀ p, parts.find? taskPatMatches = some p → computeTaskName parts = some p) ∧
    (parts.find? taskPatMatches = none → 1 < parts.length →
      computeTaskName parts = parts.head?) ∧
    (parts.find? taskPatMatches = none → parts.length ≤ 1 →
      computeTaskName parts = none) := by
  refine ⟨?_, ?_, ?_⟩
  · intro p hp
    simp [computeTaskName, hp]
  · intro h hl
    simp [computeTaskName, h, hl]
  · intro h hl
    have : ¬ 1 < parts.length := by omega
    simp [computeTaskName, h, this]

/-- witness for the task resolver: a deep segment matching the convention
    wins over the leading segment, and a plain multi-segment path falls back
    to its first segment. -/
theorem C9_task_name_witness :
    computeTaskName ["data", "parallel-6-rand-x", "out.log"] = some "parallel-6-rand-x" ∧
    computeTaskName ["data", "fio-runner-a", "out.log"] = some "data" := by
  constructor
  · exact (C9_task_name ["data", "parallel-6-rand-x", "out.log"]).1 _ (by decide)
  · have h := (C9_task_name ["data", "fio-runner-a", "out.log"]).2.1 (by decide) (by decide)
    simpa using h

/-- Claim C10: the text-extractor bandwidth conversion treats decimal and
    binary prefixed unit tokens identically (K, M, G each with the binary
    factor over the decimal MB basis), treats any other token ending in
    b-slash-s as bytes per second, and yields absent for any token not
    ending in b-slash-s. -/
theorem C10_bw_unit_table (s u : String) :
    parseBwToMBps s "KB/s" = parseBwToMBps s "KiB/s" ∧
    parseBwToMBps s "MB/s" = parseBwToMBps s "MiB/s" ∧
    parseBwToMBps s "GB/s" = parseBwToMBps s "GiB/s" ∧
    parseBwToMBps s "KB/s" = (pyFloat s).map (fun v => v * 1024 / 1000000) ∧
    parseBwToMBps s "MB/s" = (pyFloat s).map (fun v => v * 1024 * 1024 / 1000000) ∧
    parseBwToMBps s "GB/s" = (pyFloat s).map (fun v => v * 1024 * 1024 * 1024 / 1000000) ∧
    (endsWithB (lowerStr (stripWs u)) "b/s" = true →
      lowerStr (stripWs u) ≠ "kb/s" → lowerStr (stripWs u) ≠ "kib/s" →
      lowerStr (stripWs u) ≠ "mb/s" → lowerStr (stripWs u) ≠ "mib/s" →
      lowerStr (stripWs u) ≠ "gb/s" → lowerStr (stripWs u) ≠ "gib/s" →
      parseBwToMBps s u = (pyFloat s).map (fun v => v / 1000000)) ∧
    (endsWithB (lowerStr (stripWs u)) "b/s" = false → parseBwToMBps s u = none) := by
  have ek : lowerStr (stripWs "KB/s") = "kb/s" := by decide
  have em : lowerStr (stripWs "MB/s") = "mb/s" := by decide
  have eg : lowerStr (stripWs "GB/s") = "gb/s" := by decide
  refine ⟨rfl, rfl, rfl, ?_, ?_, ?_, ?_, ?_⟩
  · cases hv : pyFloat s <;> simp [parseBwToMBps, hv, ek]
  · cases hv : pyFloat s <;> simp [parseBwToMBps, hv, em]
  · cases hv : pyFloat s <;> simp [parseBwToMBps, hv, eg]
  · intro hend h1 h2 h3 h4 h5 h6
    cases hv : pyFloat s <;> simp [parseBwToMBps, hv, h1, h2, h3, h4, h5, h6, hend]
  · intro hend
    have h1 : lowerStr (stripWs u) ≠ "kb/s" := by
      intro h; rw [h] at hend; exact absurd hend (by decide)
    have h2 : lowerStr (stripWs u) ≠ "kib/s" := by
      intro h; rw [h] at hend; exact absurd hend (by decide)
    have h3 : lowerStr (stripWs u) ≠ "mb/s" := by
      intro h; rw [h] at hend; exact absurd hend (by decide)
    have h4 : lowerStr (stripWs u) ≠ "mib/s" := by
      intro h; rw [h] at hend; exact absurd hend (by decide)
    have h5 : lowerStr (stripWs u) ≠ "gb/s" := by
      intro h; rw [h] at hend; exact absurd hend (by decide)
    have h6 : lowerStr (stripWs u) ≠ "gib/s" := by
      intro h; rw [h] at hend; exact absurd hend (by decide)
    cases hv : pyFloat s <;> simp [parseBwToMBps, hv, h1, h2, h3, h4, h5, h6, hend]

/-- witness for the bandwidth unit table: a terabyte token is bytes per
    second, a non-bandwidth token is absent. -/
theorem C10_bw_unit_table_witness :
    parseBwToMBps "100" "TB/s" = (pyFloat "100").map (fun v => v / 1000000) ∧
    parseBwToMBps "100" "watts" = none := by

  constructor
  · exact (C10_bw_unit_table "100" "TB/s").2.2.2.2.2.2.1 (by decide) (by decide)
      (by decide) (by decide) (by decide) (by decide) (by decide)
  · exact (C10_bw_unit_table "100" "watts").2.2.2.2.2.2.2 (by decide)

/-- Claim C1: throughput aggregation per task and op with runner identity
    present equals the two-step computation: first the mean across repeated
    attempts within each (task, op, runner) group, then the sum of those
    per-runner means across runners.  For one runner contributing three
    attempts of 1000, 1100 and 900 IOPS the task-level summed IOPS is 1000,
    the mean, not the raw row sum 3000; with two such runners the task total
    is 2000. -/
theorem C1_runner_normalized_sum :
    taskOpSummary (fun r => r.iops) oneRunnerRows "read" = 1000 ∧
    summaryRowSum (fun r => r.iops) oneRunnerRows "read" = 3000 ∧
    taskOpSummary (fun r => r.iops) twoRunnerRows "read" = 2000 := by
  have h1 : (oneRunnerRows.filter
      (fun x => x.op == "read" && x.runner == some "fio-runner-a")).filterMap
      (fun r => r.iops) = [1000, 1100, 900] := by decide
  have h2a : (twoRunnerRows.filter
      (fun x => x.op == "read" && x.runner == some "fio-runner-a")).filterMap
      (fun r => r.iops) = [1000, 1100, 900] := by decide
  have h2b : (twoRunnerRows.filter
      (fun x => x.op == "read" && x.runner == some "fio-runner-b")).filterMap
      (fun r => r.iops) = [1000, 1100, 900] := by decide
  have h3 : (oneRunnerRows.filter (fun x => x.op == "read")).filterMap
      (fun r => r.iops) = [1000, 1100, 900] := by decide
  have hr1 : runnersIn oneRunnerRows = [some "fio-runner-a"] := by decide
  have hr2 : runnersIn twoRunnerRows = [some "fio-runner-a", some "fio-runner-b"] := by
    decide
  have ha1 : oneRunnerRows.any (fun r => r.runner.isSome) = true := by decide
  have ha2 : twoRunnerRows.any (fun r => r.runner.isSome) = true := by decide
  refine ⟨?_, ?_, ?_⟩
  · simp [taskOpSummary, ha1, summaryRunnerSum, hr1, runnerMeanMetric, h1, meanOpt]
    norm_num
  · simp [summaryRowSum, h3]
    norm_num
  · simp [taskOpSummary, ha2, summaryRunnerSum, hr2, runnerMeanMetric, h2a, h2b, meanOpt]
    norm_num

/-- Claim C4 (counterexample): content that parses as a mapping without the
    expected jobs list is answered by the structured branch with an empty
    row list and the text extractor is not attempted; and even content that
    does reach the text fallback and matches the latency pattern yields no
    rows, because the degraded-row construction raises (missing total_ios
    field) and the exception handler returns the empty list — the fallback
    never produces the claimed at-least-one-row output. -/
theorem C4_fallback_counterexample :
    parseFile (.doc noJobsDoc)
      "\x7b\"note\": \"clat (usec): avg=120.5 usec\"\x7d" none none = [] ∧
    parseFioText "\x7b\"note\": \"clat (usec): avg=120.5 usec\"\x7d" none none =
      .error () ∧
    parseFile .fail "\x7b\"note\": \"clat (usec): avg=120.5 usec\"\x7d" none none = [] :=
  ⟨rfl, rfl, rfl⟩

/-- Claim C4 (amended): the text fallback is attempted exactly when the
    structured branch raises, that is on content that is not parseable as a
    document at all or parses to a non-mapping; a well-formed mapping merely
    lacking the jobs list yields the structured extractor's empty result
    without attempting text extraction; and the attempted fallback runs
    under an exception handler which, because every text row construction
    omits the required total_ios field and raises, makes every fallback
    result empty. -/
theorem C4_fallback (content : String) (task runner : Option String) :
    parseFile .fail content task runner =
      (match parseFioText content task runner with
       | .ok rows => rows
       | .error _ => []) ∧
    parseFile .nonDict content task runner = parseFile .fail content task runner ∧
    parseFile (.doc noJobsDoc) content task runner = [] ∧
    parseFile .fail content task runner = [] := by
  refine ⟨rfl, rfl, rfl, ?_⟩
  simp only [parseFile]
  rcases hres : parseFioText content task runner with e | rows
  · rfl
  · exact parseFioText_ok_empty content task runner rows hres

/-- Claim C5: in every MetricRecord of either extractor, a numeric metric
    field is either derived from the input or absent.  In structured rows a
    missing input yields an absent field and a measured zero is carried
    through as zero, for IOPS, bandwidth, total I/O count, the latency mean
    (whichever container the cascade selects) and the three percentile
    fields; the text extractor contributes no records at all (its row
    constructions raise), so the invariant is vacuous there. -/
theorem C5_zero_vs_missing (task runner : Option String) (g : Option ℚ) (j : Job)
    (opName : String) (o : OpData) :
    (o.iops = none → (mkOpRow task runner g j opName o).iops = none) ∧
    (o.iops = some 0 → (mkOpRow task runner g j opName o).iops = some 0) ∧
    (o.bw = none → (mkOpRow task runner g j opName o).bw_MBps = none) ∧
    (o.bw = some 0 → (mkOpRow task runner g j opName o).bw_MBps = some 0) ∧
    (o.total_ios = none → (mkOpRow task runner g j opName o).total_ios = none) ∧
    (o.total_ios = some 0 → (mkOpRow task runner g j opName o).total_ios = some 0) ∧
    (latMeanSel o = none → (mkOpRow task runner g j opName o).lat_mean_ms = none) ∧
    (∀ f, latMeanSel o = some (f, 0) →
      (mkOpRow task runner g j opName o).lat_mean_ms = some 0) ∧
    (clatPctSel o = none →
      (mkOpRow task runner g j opName o).clat_p99_ms = none ∧
      (mkOpRow task runner g j opName o).clat_p95_ms = none ∧
      (mkOpRow task runner g j opName o).clat_p50_ms = none) ∧
    (∀ f v, clatPctSel o = some (f, v) → v.pctTable = none →
      (mkOpRow task runner g j opName o).clat_p99_ms = none ∧
      (mkOpRow task runner g j opName o).clat_p95_ms = none ∧
      (mkOpRow task runner g j opName o).clat_p50_ms = none) ∧
    (∀ f v tbl k, clatPctSel o = some (f, v) → v.pctTable = some tbl →
      findPercentileKey tbl 99 = some k → List.lookup k tbl = some 0 →
      (mkOpRow task runner g j opName o).clat_p99_ms = some 0) ∧
    (∀ f v tbl k, clatPctSel o = some (f, v) → v.pctTable = some tbl →
      findPercentileKey tbl 95 = some k → List.lookup k tbl = some 0 →
      (mkOpRow task runner g j opName o).clat_p95_ms = some 0) ∧
    (∀ f v tbl k, clatPctSel o = some (f, v) → v.pctTable = some tbl →
      findPercentileKey tbl 50 = some k → List.lookup k tbl = some 0 →
      (mkOpRow task runner g j opName o).clat_p50_ms = some 0) ∧
    (∀ (text : String) (t r : Option String) (rows : List ParsedRow),
      parseFioText text t r = .ok rows → rows = []) := by
  have htoMs : ∀ f : LatFam, f.toMs 0 = 0 := by
    intro f
    cases f <;> simp [LatFam.toMs, nsToMs, usToMs]
  have hptoMs : ∀ f : PctFam, f.toMs 0 = 0 := by
    intro f
    cases f <;> simp [PctFam.toMs, nsToMs, usToMs]
  refine ⟨?_, ?_, ?_, ?_, ?_, ?_, ?_, ?_, ?_, ?_, ?_, ?_, ?_, ?_⟩
  · intro h; simp [mkOpRow, h]
  · intro h; simp [mkOpRow, h]
  · intro h; simp [mkOpRow, h]
  · intro h; simp [mkOpRow, h, kbpsToMBps]
  · intro h; simp [mkOpRow, h]
  · intro h; simp [mkOpRow, h]
  · intro h; simp [mkOpRow, latMeanMs, h]
  · intro f h; simp [mkOpRow, latMeanMs, h, htoMs f]
  · intro h
    refine ⟨?_, ?_, ?_⟩ <;> simp [mkOpRow, clatP99Ms, clatP95Ms, clatP50Ms, extractPct, h]
  · intro f v h1 h2
    refine ⟨?_, ?_, ?_⟩ <;>
      simp [mkOpRow, clatP99Ms, clatP95Ms, clatP50Ms, extractPct, h1, h2]
  · intro f v tbl k h1 h2 h3 h4
    simp [mkOpRow, clatP99Ms, extractPct, h1, h2, h3, h4, hptoMs f]
  · intro f v tbl k h1 h2 h3 h4
    simp [mkOpRow, clatP95Ms, extractPct, h1, h2, h3, h4, hptoMs f]
  · intro f v tbl k h1 h2 h3 h4
    simp [mkOpRow, clatP50Ms, extractPct, h1, h2, h3, h4, hptoMs f]
  · exact parseFioText_ok_empty

/-- witness for the zero-versus-missing contract on a direction document
    whose metrics, latency mean and p99 are all measured zeros. -/
theorem C5_zero_vs_missing_witness :
    (mkOpRow none none none zeroRuntimeJob "read" zeroLatOp).iops = some 0 ∧
    (mkOpRow none none none zeroRuntimeJob "read" zeroLatOp).bw_MBps = some 0 ∧
    (mkOpRow none none none zeroRuntimeJob "read" zeroLatOp).lat_mean_ms = some 0 ∧
    (mkOpRow none none none zeroRuntimeJob "read" zeroLatOp).clat_p99_ms = some 0 := by
  obtain ⟨-, h2, -, h4, -, -, -, h8, -, -, h11, -, -, -⟩ :=
    C5_zero_vs_missing none none none zeroRuntimeJob "read" zeroLatOp
  exact ⟨h2 rfl, h4 rfl, h8 .cNs (by decide),
    h11 .ns (ClatVal.dict (some 0) (some [("99.000000", 0)]) none)
      [("99.000000", (0 : ℚ))] "99.000000" (by decide) (by decide) (by decide)
      (by decide)⟩

/-- Claim C2 (counterexample): on a job direction exposing a nanosecond
    completion container with only a percentile table and a microsecond
    completion container with a mean, the mean is selected from the
    microsecond family while the p99 is extracted from the nanosecond
    family: one row mixes unit bases. -/
theorem C2_latency_family_counterexample :
    latMeanSel mixedOp = some (.cUs, 50) ∧
    (clatPctSel mixedOp).map Prod.fst = some PctFam.ns ∧
    latMeanMs mixedOp = some (1 / 20) ∧
    clatP99Ms mixedOp = some 2 := by
  have hsel : latMeanSel mixedOp = some (.cUs, 50) := by decide
  have hpsel : clatPctSel mixedOp =
      some (PctFam.ns, ClatVal.dict none (some [("99.000000", 2000000)]) none) := by decide
  have htbl : (ClatVal.dict none (some [("99.000000", (2000000 : ℚ))]) none).pctTable =
      some [("99.000000", 2000000)] := by decide
  have hkey : findPercentileKey [("99.000000", (2000000 : ℚ))] 99 = some "99.000000" := by
    decide
  have hlk : List.lookup "99.000000" [("99.000000", (2000000 : ℚ))] = some 2000000 := by
    decide
  refine ⟨hsel, by rw [hpsel]; rfl, ?_, ?_⟩
  · rw [latMeanMs, hsel]
    simp [LatFam.toMs, usToMs]
    norm_num
  · rw [clatP99Ms, hpsel]
    simp only [extractPct, htbl, hkey, hlk]
    simp [PctFam.toMs, nsToMs]
    norm_num

/-- Claim C2 (amended): percentiles are taken from the first present
    completion-latency container in the priority order nanosecond,
    microsecond, generic, independently of which container supplied the
    mean; whenever every present completion container is a mapping exposing
    a mean, the family consulted for percentiles is exactly the family
    selected for the mean, so mean and percentile never mix bases. -/
theorem C2_latency_family (o : OpData)
    (hns : ∀ v, o.clat_ns = some v → ∃ m p q, v = ClatVal.dict (some m) p q)
    (hus : ∀ v, o.clat_us = some v → ∃ m p q, v = ClatVal.dict (some m) p q)
    (hg : ∀ v, o.clat = some v → ∃ m p q, v = ClatVal.dict (some m) p q) :
    ∀ f v, clatPctSel o = some (f, v) → ∃ m, latMeanSel o = some (famOfPct f, m) := by
  intro f v hsel
  cases hcns : o.clat_ns with
  | some w =>
    obtain ⟨m, p, q, rfl⟩ := hns w hcns
    have hps : clatPctSel o = some (PctFam.ns, ClatVal.dict (some m) p q) := by
      simp [clatPctSel, hcns]
    rw [hps] at hsel
    have hf : PctFam.ns = f := congrArg Prod.fst (Option.some.inj hsel)
    subst hf
    exact ⟨m, by simp [latMeanSel, hcns, ClatVal.meanVal, famOfPct]⟩
  | none =>
    cases hcus : o.clat_us with
    | some w =>
      obtain ⟨m, p, q, rfl⟩ := hus w hcus
      have hps : clatPctSel o = some (PctFam.us, ClatVal.dict (some m) p q) := by
        simp [clatPctSel, hcns, hcus]
      rw [hps] at hsel
      have hf : PctFam.us = f := congrArg Prod.fst (Option.some.inj hsel)
      subst hf
      exact ⟨m, by simp [latMeanSel, hcns, hcus, ClatVal.meanVal, famOfPct]⟩
    | none =>
      cases hcg : o.clat with
      | some w =>
        obtain ⟨m, p, q, rfl⟩ := hg w hcg
        have hps : clatPctSel o = some (PctFam.generic, ClatVal.dict (some m) p q) := by
          simp [clatPctSel, hcns, hcus, hcg]
        rw [hps] at hsel
        have hf : PctFam.generic = f := congrArg Prod.fst (Option.some.inj hsel)
        subst hf
        exact ⟨m, by simp [latMeanSel, hcns, hcus, hcg, ClatVal.meanVal, famOfPct]⟩
      | none =>
        exfalso
        simp [clatPctSel, hcns, hcus, hcg] at hsel

/-- witness for the shared-family property on a direction document whose
    single completion container carries a mean. -/
theorem C2_latency_family_witness :
    ∃ m, latMeanSel nsOnlyOp = some (famOfPct PctFam.ns, m) := by
  refine C2_latency_family nsOnlyOp ?_ ?_ ?_ PctFam.ns
    (ClatVal.dict (some 7) (some [("99.000000", 3)]) none) ?_
  · intro v hv
    simp only [nsOnlyOp, Option.some.injEq] at hv
    exact ⟨7, some [("99.000000", 3)], none, hv.symm⟩
  · intro v hv
    exact absurd hv (by simp [nsOnlyOp])
  · intro v hv
    exact absurd hv (by simp [nsOnlyOp])
  · decide

/-- Claim C3 (code bug): the degraded-row branch of parse_fio_text exists
    solely to emit one op-unknown row carrying the scanned latency, and the
    module docstring promises best-effort metrics from text logs; but both
    ParsedRow constructions in parse_fio_text omit the required total_ios
    dataclass field, so building any text row raises TypeError.  On the
    claim example text, the latency pattern additionally requires a unit
    token after the average value, so the scan finds nothing and the
    extractor returns no rows without reaching a row construction; with the
    unit token present the scan recovers the value 120.5 usec, whose
    conversion is the claimed 0.1205 ms, but the degraded-row construction
    raises and parse_file turns the exception into an empty result.  Either
    way the program never emits the claimed row. -/
theorem C3_degraded_row_code_bug :
    latScan "clat (usec): avg=120.5" = none ∧
    parseFioText "clat (usec): avg=120.5" none none = .ok [] ∧
    latScan "clat (usec): avg=120.5 usec" = some ("120.5", "usec") ∧
    parseLatencyToMs "120.5" "usec" = some (241 / 2000) ∧
    iopsBwScan "clat (usec): avg=120.5 usec" = [] ∧
    parseFioText "clat (usec): avg=120.5 usec" none none = .error () ∧
    parseFile .fail "clat (usec): avg=120.5 usec" none none = [] := by
  have hq0 : parseLatencyToMs "120.5" "usec" = some (partsToRat (1205, 1) / 1000) := rfl
  refine ⟨by decide, rfl, by decide, ?_, by decide, rfl, rfl⟩
  rw [hq0]
  norm_num [partsToRat]

/-- Claim C6 (counterexample): with the single key 99 and target 99.0, the
    exact-match stage compares the decimal rendering 99.0 of the float
    target, which is absent, so the resolver reaches the value only through
    the nearest-numeric fallback, not through the exact bare-number
    match. -/
theorem C6_percentile_resolution_counterexample :
    pyStr 99 = "99.0" ∧
    findPercentileKeyTagged [("99", 3)] 99 = some (.nearStr, "99") ∧
    findPercentileKey [("99", 3)] 99 = some "99" :=
  ⟨by decide, by decide, by decide⟩

/-- Claim C6 (amended): resolution order is exact match on the decimal
    rendering of the target, then on its 6-decimal format, then the
    numerically nearest float-parseable key; the three examples resolve to
    the values 3, 3 and 9, the bare-99 one via the nearest-numeric fallback;
    absent is returned only when no key parses as a number. -/
theorem C6_percentile_resolution :
    (findPercentileKey [("50.000000", 1), ("95.000000", 2), ("99.000000", 3)] 99).bind
      (fun k => List.lookup k [("50.000000", (1 : ℚ)), ("95.000000", 2), ("99.000000", 3)]) =
      some 3 ∧
    (findPercentileKey [("99", 3)] 99).bind
      (fun k => List.lookup k [("99", (3 : ℚ))]) = some 3 ∧
    (findPercentileKey [("98.5", 9)] 99).bind
      (fun k => List.lookup k [("98.5", (9 : ℚ))]) = some 9 ∧
    (∀ (ps : List (String × ℚ)) (t : ℚ) (k : String) (v : ℚ),
      findPercentileKey ps t = none → (k, v) ∈ ps → pyFloat k = none) := by
  refine ⟨by decide, by decide, by decide, ?_⟩
  intro ps t k v hnone hmem
  cases hx : pyFloat k with
  | none => rfl
  | some x =>
    exfalso
    have hmem2 : ((|x - t|, k) : ℚ × String) ∈ nearestPairs ps t := by
      apply List.mem_filterMap.2
      exact ⟨(k, v), hmem, by rw [hx]; rfl⟩
    have hne : nearestPairs ps t ≠ [] := by
      intro h
      rw [h] at hmem2
      exact absurd hmem2 (List.not_mem_nil _)
    have hs := minPair_isSome (nearestPairs ps t) hne
    unfold findPercentileKey at hnone
    split_ifs at hnone
    rw [Option.map_eq_none'] at hnone
    rw [hnone] at hs
    simp at hs

/-- witness for the resolver returning absent only on unparseable keys. -/
theorem C6_percentile_resolution_witness : pyFloat "no-number" = none :=
  C6_percentile_resolution.2.2.2 [("no-number", 1)] 99 "no-number" 1
    (by decide) (by decide)

end FioParse
